import Mathlib

/-!
Verification development for the `attentive` attention-routing engine.

The Rust sources are embedded shallowly:
* `f64` scores become `ℝ` (exact real arithmetic; `f64::ln` becomes `Real.log`);
* `HashMap<String, _>` becomes an association list `List (String × _)` in one
  (arbitrary) iteration order, with `lookupA` / `updA` / `insA` modelling
  `get` / `get_mut` / `insert`;
* `usize` counters become `Nat`.

Components embedded: `attentive-core` (`types.rs`, `config.rs`, `router.rs`),
`attentive-learn` (`learner.rs`), `attentive-index` (`bm25.rs`) and
`attentive-repo` (`mapper.rs`, `symbols.rs`).
-/

namespace Attentive

/-- Association-list lookup: the value stored under key `k` (HashMap `get`). -/
def lookupA {α : Type} (k : String) : List (String × α) → Option α
  | [] => none
  | kv :: t => if k = kv.1 then some kv.2 else lookupA k t

/-- Apply a key-dependent function to every stored value (iteration with
`for (k, v) in &mut map { *v = f(k, v) }`). -/
def mapVals {α : Type} (f : String → α → α) : List (String × α) → List (String × α)
  | [] => []
  | kv :: t => (kv.1, f kv.1 kv.2) :: mapVals f t

/-- Apply `f` to the value stored under key `k` (HashMap `get_mut`); when the
key is absent nothing changes. -/
def updA {α : Type} (k : String) (f : α → α) : List (String × α) → List (String × α)
  | [] => []
  | kv :: t => (if kv.1 = k then (kv.1, f kv.2) else kv) :: updA k f t

/-- Store `v` under key `k` (HashMap `insert`): overwrite an existing entry,
otherwise append a fresh one. -/
def insA {α : Type} (k : String) (v : α) (l : List (String × α)) : List (String × α) :=
  if (lookupA k l).isSome then updA k (fun _ => v) l
  else l ++ [(k, v)]

/-- Insert one element into a list sorted by an `Ordering`-valued comparator,
placing it before the first element it does not compare `Greater` to. -/
def insertCmp {α : Type} (cmp : α → α → Ordering) (a : α) : List α → List α
  | [] => [a]
  | b :: l => if cmp a b = Ordering.gt then b :: insertCmp cmp a l else a :: b :: l

/-- Stable comparator sort (the semantics of Rust `slice::sort_by`): every
adjacent pair of the output compares `≠ Greater`, equal elements keep their
input order. -/
def sortByCmp {α : Type} (cmp : α → α → Ordering) : List α → List α
  | [] => []
  | a :: l => insertCmp cmp a (sortByCmp cmp l)

/-- Total comparison of two real scores, as `f64::partial_cmp(..).unwrap_or(Equal)`
behaves on non-NaN floats. -/
noncomputable def rcmp (a b : ℝ) : Ordering :=
  if a < b then Ordering.lt else if b < a then Ordering.gt else Ordering.eq

/-! ## attentive-core/src/types.rs -/

/-- Attention tier classification (`types.rs`). -/
inductive Tier
  | hot
  | warm
  | cold
deriving DecidableEq

/-- Translation of `Tier::from_score` (`types.rs` lines 21-29). -/
noncomputable def Tier.from_score (score : ℝ) : Tier :=
  if 0.8 ≤ score then Tier.hot
  else if 0.25 ≤ score then Tier.warm
  else Tier.cold

/-- Translation of `AttentionState` (`types.rs` lines 33-42). -/
structure AttentionState where
  scores : List (String × ℝ)
  consecutive_turns : List (String × Nat)
  turn_count : Nat

/-! ## attentive-core/src/config.rs -/

/-- Translation of `DecayRates` (`config.rs`). The `rates` HashMap is carried
in one iteration order. -/
structure DecayRates where
  rates : List (String × ℝ)
  dflt : ℝ

/-- Model of Rust `str::starts_with`: the first string begins with the second,
expressed on the character lists. -/
def strStartsWith (s pre : String) : Bool := pre.data.isPrefixOf s.data

/-- Helper for `DecayRates::get_decay`: first rate whose path prefix matches. -/
def getDecayList (rates : List (String × ℝ)) (dflt : ℝ) (path : String) : ℝ :=
  match rates with
  | [] => dflt
  | pr :: t => if strStartsWith path pr.1 then pr.2 else getDecayList t dflt path

/-- Translation of `DecayRates::get_decay` (`config.rs` lines 27-34). -/
def DecayRates.get_decay (d : DecayRates) (path : String) : ℝ :=
  getDecayList d.rates d.dflt path

/-- Translation of `DecayRates::new` (`config.rs` lines 14-25), in the
insertion order of the source. -/
noncomputable def DecayRates.new : DecayRates :=
  { rates := [("systems/", 0.85), ("modules/", 0.70), ("integrations/", 0.80), ("docs/", 0.75)]
    dflt := 0.70 }

/-- Translation of `Config` (`config.rs` lines 44-81). -/
structure Config where
  decay_rates : DecayRates
  hot_threshold : ℝ
  warm_threshold : ℝ
  coactivation_boost : ℝ
  transitive_boost : ℝ
  max_hot_files : Nat
  max_warm_files : Nat
  pinned_floor_boost : ℝ
  demoted_penalty : ℝ
  co_activation : List (String × List String)
  pinned_files : List String
  demoted_files : List String

/-- Translation of `Config::new` (`config.rs` lines 84-99). -/
noncomputable def Config.new : Config :=
  { decay_rates := DecayRates.new
    hot_threshold := 0.8
    warm_threshold := 0.25
    coactivation_boost := 0.35
    transitive_boost := 0.15
    max_hot_files := 3
    max_warm_files := 5
    pinned_floor_boost := 0.1
    demoted_penalty := 0.5
    co_activation := []
    pinned_files := []
    demoted_files := [] }

/-! ## attentive-learn/src/learner.rs -/

/-- Translation of `MaturityLevel` (`learner.rs` lines 26-31). -/
inductive MaturityLevel
  | observing
  | active
deriving DecidableEq

/-- Translation of the `STOP_WORDS` constant (`learner.rs` lines 11-23). -/
def STOP_WORDS : List String :=
  ["the", "a", "an", "is", "are", "was", "were", "be", "been", "being", "have", "has", "had",
   "do", "does", "did", "will", "would", "could", "should", "may", "might", "can", "to", "of",
   "in", "for", "on", "with", "at", "by", "from", "as", "into", "through", "then", "here",
   "there", "when", "where", "why", "how", "all", "each", "every", "both", "few", "more", "most",
   "some", "such", "not", "only", "just", "but", "and", "or", "if", "about", "what", "which",
   "who", "this", "that", "these", "those", "it", "its", "my", "me", "we", "our", "you", "your",
   "up", "down", "no", "so", "very", "too", "than", "please", "help", "want", "like", "think",
   "know", "see", "look", "make", "take", "get", "let", "say", "tell", "give", "use", "find",
   "show", "try", "ask", "work", "call", "put", "keep", "also", "file", "code", "change",
   "update", "add", "remove", "fix", "check", "run", "new", "now", "still", "already", "done",
   "good", "right", "sure", "yeah", "yes", "okay", "thanks", "thank"]

/-- Translation of the constant `MATURITY_THRESHOLD` (`learner.rs` line 6). -/
def MATURITY_THRESHOLD : Nat := 25

/-- Translation of the constant `ACTIVE_BOOST_WEIGHT` (`learner.rs` line 7). -/
noncomputable def ACTIVE_BOOST_WEIGHT : ℝ := 0.35

/-- Translation of the constant `DEFAULT_DECAY` (`learner.rs` line 9). -/
noncomputable def DEFAULT_DECAY : ℝ := 0.70

/-- Translation of the `Learner` state (`learner.rs` lines 34-55). `file_turns`
sets are carried as lists of turn indices. -/
structure Learner where
  turn_count : Nat
  maturity : MaturityLevel
  word_file_counts : List (String × List (String × Nat))
  word_doc_freq : List (String × Nat)
  file_turns : List (String × List Nat)
  file_last_seen : List (String × Nat)
  file_gaps : List (String × List Nat)
  last_session_files : List String

/-- Translation of `Learner::new` (`learner.rs` lines 58-69). -/
def Learner.new : Learner :=
  { turn_count := 0
    maturity := MaturityLevel.observing
    word_file_counts := []
    word_doc_freq := []
    file_turns := []
    file_last_seen := []
    file_gaps := []
    last_session_files := [] }

/-- Translation of `Learner::boost_weight` (`learner.rs` lines 75-80). -/
noncomputable def Learner.boost_weight (l : Learner) : ℝ :=
  match l.maturity with
  | MaturityLevel.observing => 0
  | MaturityLevel.active => ACTIVE_BOOST_WEIGHT

/-- Translation of `Learner::extract_words` (`learner.rs` lines 91-99):
lowercase, split on characters that are not alphanumeric, `_` or `-`, keep
tokens of length at least 3 that are not stop words. -/
def Learner.extract_words (prompt : String) : List String :=
  (prompt.toLower.split (fun c => !(c.isAlphanum || c == '_' || c == '-'))).filter
    (fun w => decide (3 ≤ w.length) && !(STOP_WORDS.contains w))

/-- Translation of `Learner::calculate_idf` (`learner.rs` lines 140-147). -/
noncomputable def Learner.calculate_idf (l : Learner) (word : String) : ℝ :=
  if l.turn_count = 0 then 1
  else
    let doc_freq := (lookupA word l.word_doc_freq).getD 0
    max (Real.log ((l.turn_count : ℝ) / (1 + (doc_freq : ℝ)))) 0.1

/-- One step of the affinity loop of `Learner::boost_scores` (`learner.rs`
lines 175-188): add `idf · frequency` when the word-file co-occurrence count
exists. -/
noncomputable def affinityStep (l : Learner) (file : String) (acc : ℝ) (word : String) : ℝ :=
  match lookupA word l.word_file_counts with
  | none => acc
  | some file_counts =>
    match lookupA file file_counts with
    | none => acc
    | some count =>
      let frequency : ℝ :=
        if 0 < l.turn_count then (count : ℝ) / (l.turn_count : ℝ) else 0
      acc + l.calculate_idf word * frequency

/-- The boosted entry `Learner::boost_scores` computes for one file
(`learner.rs` lines 172-196). -/
noncomputable def boostEntry (l : Learner) (words : List String) (fb : String × ℝ) :
    String × ℝ :=
  let affinity_sum := words.foldl (affinityStep l fb.1) 0
  let normalized_affinity := affinity_sum / max ((words.length : ℝ)) 1
  let boost := normalized_affinity * l.boost_weight
  (fb.1, min (fb.2 + boost) 1)

/-- Translation of `Learner::boost_scores` (`learner.rs` lines 150-199). -/
noncomputable def Learner.boost_scores (l : Learner) (prompt : String)
    (current_scores : List (String × ℝ)) : List (String × ℝ) :=
  if l.boost_weight = 0 then current_scores
  else
    let words := Learner.extract_words prompt
    if words = [] then current_scores
    else current_scores.map (boostEntry l words)

/-- Ascending sort of the recorded gaps (`sort_unstable` in the source). -/
def sortedGaps (gaps : List Nat) : List Nat := sortByCmp compare gaps

/-- Translation of `Learner::get_file_decay` (`learner.rs` lines 240-266). -/
noncomputable def Learner.get_file_decay (l : Learner) (path : String) : ℝ :=
  match lookupA path l.file_gaps with
  | some gaps =>
    if gaps.length < 2 then DEFAULT_DECAY
    else
      let sorted := sortedGaps gaps
      let median := sorted.getD (sorted.length / 2) 0
      if median ≤ 3 then 0.88
      else if 12 ≤ median then 0.50
      else 0.88 + ((median : ℝ) - 3) / 9 * (0.50 - 0.88)
  | none => DEFAULT_DECAY

/-! ## attentive-core/src/router.rs -/

/-- The `directly_activated` set of `Router::update_attention` (`router.rs`
line 34): created empty and never inserted into. -/
def directly_activated : List String := []

/-- The boost map the phase-2 BFS computes (`router.rs` lines 52-97): it
iterates over `directly_activated`, which is empty, so no boost is ever
recorded. -/
def coactivationBoosts : List (String × ℝ) := []

/-- The `entry(path).or_insert(0)` loop at the top of `update_attention`
(`router.rs` lines 36-39): give every scored path a streak entry. -/
def ensureConsec (scores : List (String × ℝ)) (ct : List (String × Nat)) :
    List (String × Nat) :=
  scores.foldl
    (fun acc kv => if (lookupA kv.1 acc).isSome then acc else acc ++ [(kv.1, 0)]) ct

/-- Phase 1 (`router.rs` lines 41-49): multiply every score by the learned or
configured decay factor. -/
noncomputable def phase1Decay (config : Config) (learner : Option Learner)
    (scores : List (String × ℝ)) : List (String × ℝ) :=
  mapVals (fun path score =>
    score * (match learner with
             | some l => l.get_file_decay path
             | none => config.decay_rates.get_decay path)) scores

/-- Phase 2 (`router.rs` lines 99-104): apply the co-activation boosts,
clamped at 1.0, to files already present in the score map. -/
noncomputable def phase2Coactivation (scores : List (String × ℝ)) : List (String × ℝ) :=
  coactivationBoosts.foldl (fun acc kv => updA kv.1 (fun s => min (s + kv.2) 1) acc) scores

/-- Phase 3 (`router.rs` lines 107-113): raise every pinned file present in
the score map to at least `warm_threshold + pinned_floor_boost`. -/
noncomputable def phase3Pinned (config : Config) (scores : List (String × ℝ)) :
    List (String × ℝ) :=
  config.pinned_files.foldl
    (fun acc p =>
      updA p (fun s => max s (config.warm_threshold + config.pinned_floor_boost)) acc) scores

/-- Phase 4 (`router.rs` lines 115-123): multiply every demoted file not in
the directly-activated set by `demoted_penalty`. -/
noncomputable def phase4Demoted (config : Config) (scores : List (String × ℝ)) :
    List (String × ℝ) :=
  config.demoted_files.foldl
    (fun acc p =>
      if directly_activated.contains p then acc
      else updA p (fun s => s * config.demoted_penalty) acc) scores

/-- Phase 5 (`router.rs` lines 125-133): assign the learner-boosted score to
every file still present in the score map. -/
noncomputable def phase5LearnerBoost (learner : Option Learner) (prompt : String)
    (scores : List (String × ℝ)) : List (String × ℝ) :=
  match learner with
  | none => scores
  | some l =>
    (l.boost_scores prompt scores).foldl (fun acc kv => updA kv.1 (fun _ => kv.2) acc) scores

/-- One step of phase 6 (`router.rs` lines 136-143): bump the streak of a
HOT/WARM file, reset the streak of a COLD file. -/
noncomputable def streakStep (acc : List (String × Nat)) (kv : String × ℝ) :
    List (String × Nat) :=
  if Tier.from_score kv.2 = Tier.hot ∨ Tier.from_score kv.2 = Tier.warm then
    insA kv.1 ((lookupA kv.1 acc).getD 0 + 1) acc
  else insA kv.1 0 acc

/-- Phase 6 (`router.rs` lines 135-143): streak accounting over the final
scores. -/
noncomputable def phase6Streaks (scores : List (String × ℝ)) (ct : List (String × Nat)) :
    List (String × Nat) :=
  scores.foldl streakStep ct

/-- The scores after phases 1-5 of `Router::update_attention`. -/
noncomputable def scoresAfterPhases (config : Config) (state : AttentionState)
    (prompt : String) (learner : Option Learner) : List (String × ℝ) :=
  phase5LearnerBoost learner prompt
    (phase4Demoted config (phase3Pinned config (phase2Coactivation
      (phase1Decay config learner state.scores))))

/-- Translation of `Router::update_attention` (`router.rs` lines 28-147): the
six mutation phases in their source order, then the turn counter bump. The
returned `directly_activated` set is the constant empty set. -/
noncomputable def Router.update_attention (config : Config) (state : AttentionState)
    (prompt : String) (learner : Option Learner) : AttentionState :=
  { scores := scoresAfterPhases config state prompt learner
    consecutive_turns :=
      phase6Streaks (scoresAfterPhases config state prompt learner)
        (ensureConsec state.scores state.consecutive_turns)
    turn_count := state.turn_count + 1 }

/-- Translation of the cache-stability comparator closure inside
`Router::build_context_output` (`router.rs` lines 169-185). -/
noncomputable def Router.sort_fn (config : Config) (state : AttentionState)
    (a b : String × ℝ) : Ordering :=
  let a_pinned := config.pinned_files.contains a.1
  let b_pinned := config.pinned_files.contains b.1
  let a_streak := (lookupA a.1 state.consecutive_turns).getD 0
  let b_streak := (lookupA b.1 state.consecutive_turns).getD 0
  if a_pinned ≠ b_pinned then compare b_pinned a_pinned
  else if a_streak ≠ b_streak then compare b_streak a_streak
  else rcmp b.2 a.2

/-- Translation of `Router::build_context_output` (`router.rs` lines 150-199). -/
noncomputable def Router.build_context_output (config : Config) (state : AttentionState) :
    List String × List String × List String :=
  let hot_files := state.scores.filter (fun kv => decide (Tier.from_score kv.2 = Tier.hot))
  let warm_files := state.scores.filter (fun kv => decide (Tier.from_score kv.2 = Tier.warm))
  let cold_files := state.scores.filter (fun kv => decide (Tier.from_score kv.2 = Tier.cold))
  let hot_sorted := (sortByCmp (Router.sort_fn config state) hot_files).take config.max_hot_files
  let warm_sorted :=
    (sortByCmp (Router.sort_fn config state) warm_files).take config.max_warm_files
  (hot_sorted.map Prod.fst, warm_sorted.map Prod.fst, cold_files.map Prod.fst)

/-! ## attentive-index/src/bm25.rs -/

/-- Translation of the BM25 constant `K1` (`bm25.rs` line 5). -/
noncomputable def K1 : ℝ := 1.5

/-- Translation of the BM25 constant `B` (`bm25.rs` line 6). -/
noncomputable def B : ℝ := 0.75

/-- Translation of the `BM25` state (`bm25.rs` lines 8-15). -/
structure BM25 where
  doc_count : Nat
  avg_doc_len : ℝ
  doc_lens : List Nat
  doc_ids : List String
  idf : List (String × ℝ)

/-- Translation of `BM25::new` (`bm25.rs` lines 18-26). -/
noncomputable def BM25.new : BM25 :=
  { doc_count := 0, avg_doc_len := 0, doc_lens := [], doc_ids := [], idf := [] }

/-- Increment the document-frequency counter of one term. -/
def bumpA (k : String) : List (String × Nat) → List (String × Nat)
  | [] => [(k, 1)]
  | kv :: t => if kv.1 = k then (kv.1, kv.2 + 1) :: t else kv :: bumpA k t

/-- Document frequencies: each document contributes once per distinct token
(the `unique_tokens` HashSet of the source). -/
def docFreqOf (documents : List (String × List String)) : List (String × Nat) :=
  documents.foldl (fun acc d => d.2.dedup.foldl (fun a t => bumpA t a) acc) []

/-- Translation of `BM25::index` (`bm25.rs` lines 28-58) applied to a fresh
`BM25::new` state. -/
noncomputable def BM25.index (documents : List (String × List String)) : BM25 :=
  if documents.length = 0 then BM25.new
  else
    { doc_count := documents.length
      avg_doc_len :=
        ((documents.foldl (fun t d => t + d.2.length) 0 : Nat) : ℝ) / (documents.length : ℝ)
      doc_lens := documents.map (fun d => d.2.length)
      doc_ids := documents.map Prod.fst
      idf := (docFreqOf documents).map (fun td =>
        (td.1,
         Real.log (((documents.length : ℝ) - (td.2 : ℝ) + 0.5) / ((td.2 : ℝ) + 0.5) + 1))) }

/-- Translation of `BM25::compute_score` (`bm25.rs` lines 80-94). Note that the
source adds the contribution of every indexed query term to every document,
whether or not the document contains the term. -/
noncomputable def BM25.compute_score (b : BM25) (doc_idx : Nat)
    (query_tokens : List String) : ℝ :=
  let doc_len : ℝ := ((b.doc_lens.getD doc_idx 0 : Nat) : ℝ)
  query_tokens.foldl (fun score term =>
    match lookupA term b.idf with
    | none => score
    | some idf =>
      let norm := 1 + K1 * (1 - B + B * doc_len / b.avg_doc_len)
      score + idf * K1 / norm) 0

/-- Translation of `BM25::search` (`bm25.rs` lines 60-78). -/
noncomputable def BM25.search (b : BM25) (query_tokens : List String) (k : Nat) :
    List (String × ℝ) :=
  if b.doc_count = 0 then []
  else
    let scores := b.doc_ids.enum.map (fun p => (p.2, b.compute_score p.1 query_tokens))
    let sorted := sortByCmp (fun x y => rcmp y.2 x.2) scores
    sorted.take k

/-! ## attentive-repo/src/mapper.rs and symbols.rs -/

/-- Translation of `estimate_tokens` (`symbols.rs` lines 104-107), with the
symbol list abstracted to its length: 5 tokens overhead plus 10 per symbol. -/
def estimate_tokens (num_symbols : Nat) : Nat := 5 + num_symbols * 10

/-- The budgeted greedy loop of `RepoMapper::get_ranked_files` (`mapper.rs`
lines 93-104): walk the rank-sorted list, skip paths with no stored symbols,
stop at the first file whose estimate would push the running total past the
budget. -/
def greedyBudget (items : List (String × ℝ)) (file_symbols : List (String × Nat))
    (token_budget : Nat) (tokens_used : Nat) : List String :=
  match items with
  | [] => []
  | pr :: rest =>
    match lookupA pr.1 file_symbols with
    | none => greedyBudget rest file_symbols token_budget tokens_used
    | some est =>
      if token_budget < tokens_used + est then []
      else pr.1 :: greedyBudget rest file_symbols token_budget (tokens_used + est)

/-- Translation of `RepoMapper::get_ranked_files` (`mapper.rs` lines 89-107).
`page_rank_scores` is the map returned by `self.page_rank()` (computed by the
external petgraph library) in one iteration order, and `file_symbols` carries
the `token_estimate` of each stored `FileSymbols`. -/
noncomputable def RepoMapper.get_ranked_files (page_rank_scores : List (String × ℝ))
    (file_symbols : List (String × Nat)) (token_budget : Nat) : List String :=
  let ranks := sortByCmp (fun a b => rcmp b.2 a.2) page_rank_scores
  greedyBudget ranks file_symbols token_budget 0

/-! ## Association-list lemmas -/

theorem lookupA_append {α : Type} (l₁ l₂ : List (String × α)) (k : String) :
    lookupA k (l₁ ++ l₂) = ((lookupA k l₁).orElse fun _ => lookupA k l₂) := by
  induction l₁ with
  | nil => simp [lookupA]
  | cons kv t ih =>
    by_cases h : k = kv.1 <;> simp [lookupA, h, ih]

theorem lookupA_mapVals {α : Type} (f : String → α → α) (l : List (String × α)) (k : String) :
    lookupA k (mapVals f l) = (lookupA k l).map (f k) := by
  induction l with
  | nil => rfl
  | cons kv t ih =>
    by_cases h : k = kv.1
    · simp [mapVals, lookupA, h]
    · simp [mapVals, lookupA, h, ih]

theorem lookupA_updA {α : Type} (f : α → α) (l : List (String × α)) (k q : String) :
    lookupA k (updA q f l) = if k = q then (lookupA k l).map f else lookupA k l := by
  induction l with
  | nil => simp [updA, lookupA]
  | cons kv t ih =>
    by_cases hq : kv.1 = q
    · subst hq
      by_cases hk : k = kv.1
      · subst hk
        simp [updA, lookupA]
      · simp [updA, lookupA, hk, ih]
    · by_cases hk : k = kv.1
      · subst hk
        simp [updA, lookupA, hq]
      · simp [updA, lookupA, hq, hk, ih]

theorem lookupA_insA {α : Type} (v : α) (l : List (String × α)) (k q : String) :
    lookupA k (insA q v l) = if k = q then some v else lookupA k l := by
  unfold insA
  by_cases hs : (lookupA q l).isSome
  · rw [if_pos hs, lookupA_updA]
    by_cases hk : k = q
    · subst hk
      obtain ⟨w, hw⟩ := Option.isSome_iff_exists.mp hs
      simp [hw]
    · simp [hk]
  · rw [if_neg hs, lookupA_append]
    by_cases hk : k = q
    · subst hk
      rw [Option.not_isSome_iff_eq_none] at hs
      simp [hs, lookupA]
    · cases h : lookupA k l <;> simp [h, lookupA, hk]

theorem lookupA_mem {α : Type} {l : List (String × α)} {k : String} {v : α}
    (h : lookupA k l = some v) : (k, v) ∈ l := by
  induction l with
  | nil => simp [lookupA] at h
  | cons kv t ih =>
    by_cases hk : k = kv.1
    · subst hk
      have h2 : kv.2 = v := by simpa [lookupA] using h
      subst h2
      simp
    · simp only [lookupA, if_neg hk] at h
      exact List.mem_cons_of_mem _ (ih h)

theorem lookupA_isSome_updA {α : Type} (f : α → α) (l : List (String × α)) (k q : String) :
    (lookupA k (updA q f l)).isSome = (lookupA k l).isSome := by
  rw [lookupA_updA]
  by_cases h : k = q <;> simp [h]

/-! ## C2 — demotion scenario -/

/-- Configuration of Scenario C: defaults plus one demoted file. -/
noncomputable def cfgC2 : Config :=
  { Config.new with demoted_files := ["d.md"], demoted_penalty := 0.5 }

/-- State of Scenario C. -/
noncomputable def stC2 : AttentionState :=
  { scores := [("d.md", 0.6), ("n.md", 0.6)], consecutive_turns := [], turn_count := 0 }

/-- C2: with default config plus `demoted_files = ["d.md"]` and penalty 0.5,
starting from scores 0.6/0.6 with no learner and the (always empty) directly
activated set, one `update_attention` turn leaves `d.md` at
0.6 · 0.7 · 0.5 = 0.21 (COLD) and `n.md` at 0.6 · 0.7 = 0.42 (WARM). -/
theorem c2_demotion_scenario :
    lookupA "d.md" (Router.update_attention cfgC2 stC2 "unrelated" none).scores
      = some 0.21 ∧
    (lookupA "d.md" (Router.update_attention cfgC2 stC2 "unrelated" none).scores).map
      Tier.from_score = some Tier.cold ∧
    lookupA "n.md" (Router.update_attention cfgC2 stC2 "unrelated" none).scores
      = some 0.42 ∧
    (lookupA "n.md" (Router.update_attention cfgC2 stC2 "unrelated" none).scores).map
      Tier.from_score = some Tier.warm := by
  norm_num [Router.update_attention, scoresAfterPhases, phase1Decay, phase2Coactivation,
    phase3Pinned, phase4Demoted, phase5LearnerBoost, coactivationBoosts,
    cfgC2, stC2, Config.new, DecayRates.new,
    DecayRates.get_decay, getDecayList, mapVals, updA, lookupA, directly_activated,
    Tier.from_score,
    (by decide : strStartsWith "d.md" "systems/" = false),
    (by decide : strStartsWith "d.md" "modules/" = false),
    (by decide : strStartsWith "d.md" "integrations/" = false),
    (by decide : strStartsWith "d.md" "docs/" = false),
    (by decide : strStartsWith "n.md" "systems/" = false),
    (by decide : strStartsWith "n.md" "modules/" = false),
    (by decide : strStartsWith "n.md" "integrations/" = false),
    (by decide : strStartsWith "n.md" "docs/" = false),
    (by decide : "n.md" ≠ "d.md"), (by decide : "d.md" ≠ "n.md")]

/-! ## C1 — negative decay factors are not clamped -/

/-- Configuration whose decay-rate table carries a negative factor for the
path prefix `"x"`. -/
noncomputable def cfgC1 : Config :=
  { Config.new with decay_rates := { rates := [("x", -1)], dflt := 0.70 } }

/-- Prior state for the C1 failing input: a single score inside `[0, 1]`. -/
noncomputable def stC1 : AttentionState :=
  { scores := [("x.md", 0.5)], consecutive_turns := [], turn_count := 0 }

/-- C1 (failing input): all prior scores lie in `[0, 1]` and the decay factor
the config yields for `"x.md"` is the negative number −1, yet
`update_attention` multiplies by it unclamped and returns the score −0.5,
outside `[0, 1]` — the claimed invariant (negative decay treated as the
default 0.70) does not hold of the code. -/
theorem c1_negative_decay_escapes_unit_interval :
    (∀ v ∈ stC1.scores.map Prod.snd, 0 ≤ v ∧ v ≤ 1) ∧
    cfgC1.decay_rates.get_decay "x.md" = (-1 : ℝ) ∧
    lookupA "x.md" (Router.update_attention cfgC1 stC1 "" none).scores
      = some (-(0.5 : ℝ)) ∧
    ¬ (0 ≤ (-(0.5 : ℝ))) := by
  norm_num [Router.update_attention, scoresAfterPhases, phase1Decay, phase2Coactivation,
    phase3Pinned, phase4Demoted, phase5LearnerBoost, coactivationBoosts,
    cfgC1, stC1, Config.new, DecayRates.new,
    DecayRates.get_decay, getDecayList, mapVals, updA, lookupA, directly_activated,
    Tier.from_score, (by decide : strStartsWith "x.md" "x" = true)]

/-! ## C5 — cache-stability sort -/

/-- Scenario E state, one HashMap iteration order: the streak-5 file first. -/
noncomputable def stC5a : AttentionState :=
  { scores := [("s5.md", 0.9), ("s1.md", 0.95)]
    consecutive_turns := [("s5.md", 5), ("s1.md", 1)]
    turn_count := 7 }

/-- Scenario E state, the other iteration order: the streak-1 file first. -/
noncomputable def stC5b : AttentionState :=
  { scores := [("s1.md", 0.95), ("s5.md", 0.9)]
    consecutive_turns := [("s5.md", 5), ("s1.md", 1)]
    turn_count := 7 }

/-- C5: two non-pinned HOT files with scores 0.9 / 0.95 and streaks 5 / 1;
`build_context_output` puts the streak-5 file first in the HOT list (streak
beats score), whichever way the score map is iterated. -/
theorem c5_streak_beats_score :
    (Router.build_context_output Config.new stC5a).1 = ["s5.md", "s1.md"] ∧
    (Router.build_context_output Config.new stC5b).1 = ["s5.md", "s1.md"] := by
  constructor <;>
    norm_num [Router.build_context_output, Router.sort_fn, sortByCmp, insertCmp, rcmp,
      lookupA, Tier.from_score, Config.new, DecayRates.new, stC5a, stC5b,
      (by decide : compare (1 : Nat) 5 = Ordering.lt),
      (by decide : compare (5 : Nat) 1 = Ordering.gt),
      (by decide : "s1.md" ≠ "s5.md"), (by decide : "s5.md" ≠ "s1.md"),
      (by decide : Ordering.lt ≠ Ordering.gt)]

/-! ## C7 — learned per-file decay -/

/-- A learner that has recorded exactly one gap (of 5 turns) for file `f`,
i.e. has observed `f` exactly twice. -/
def lrnC7 : Learner := { Learner.new with file_gaps := [("f", [5])] }

/-- C7 (counterexample): with one recorded gap of 5 the code returns the
default decay 0.70, whereas the claimed piecewise function (gaps are
recorded, median 5, interpolation case) would give 0.88 + (2/9)·(−0.38). -/
theorem c7_one_gap_returns_default :
    Learner.get_file_decay lrnC7 "f" = 0.70 ∧
    (0.70 : ℝ) ≠ 0.88 + ((5 : ℝ) - 3) / 9 * (0.50 - 0.88) := by
  constructor
  · norm_num [Learner.get_file_decay, lrnC7, Learner.new, lookupA, DEFAULT_DECAY]
  · norm_num

/-- C7 (amended): `get_file_decay` returns `DEFAULT_DECAY = 0.70` when fewer
than two gaps are recorded for the file (in particular when it was observed
fewer than three times), and otherwise is piecewise in the median
`m = sorted_gaps[n / 2]`: 0.88 for m ≤ 3, 0.50 for m ≥ 12, and the linear
interpolation 0.88 + ((m − 3) / 9) · (0.50 − 0.88) in between. -/
theorem c7_file_decay_piecewise (l : Learner) (path : String) :
    (lookupA path l.file_gaps = none → l.get_file_decay path = 0.70) ∧
    (∀ gaps, lookupA path l.file_gaps = some gaps → gaps.length < 2 →
      l.get_file_decay path = 0.70) ∧
    (∀ gaps, lookupA path l.file_gaps = some gaps → 2 ≤ gaps.length →
      ((sortedGaps gaps).getD ((sortedGaps gaps).length / 2) 0 ≤ 3 →
        l.get_file_decay path = 0.88) ∧
      (12 ≤ (sortedGaps gaps).getD ((sortedGaps gaps).length / 2) 0 →
        l.get_file_decay path = 0.50) ∧
      (3 < (sortedGaps gaps).getD ((sortedGaps gaps).length / 2) 0 →
        (sortedGaps gaps).getD ((sortedGaps gaps).length / 2) 0 < 12 →
        l.get_file_decay path =
          0.88 + (((sortedGaps gaps).getD ((sortedGaps gaps).length / 2) 0 : ℝ) - 3) / 9 *
            (0.50 - 0.88))) := by
  refine ⟨fun h => ?_, fun gaps h hlen => ?_, fun gaps h hlen => ?_⟩
  · simp [Learner.get_file_decay, h, DEFAULT_DECAY]
  · simp [Learner.get_file_decay, h, hlen, DEFAULT_DECAY]
  · refine ⟨fun hm => ?_, fun hm => ?_, fun hm1 hm2 => ?_⟩ <;>
      simp only [Learner.get_file_decay, h] <;>
      rw [if_neg (by omega)]
    · rw [if_pos hm]
    · rw [if_neg (by omega), if_pos hm]
    · rw [if_neg (by omega), if_neg (by omega)]

/-- A learner with two recorded gaps of 2 turns for file `g`. -/
def lrnC7w : Learner := { Learner.new with file_gaps := [("g", [2, 2])] }

/-- C7 witness: the amended piecewise description evaluated at a learner with
gaps [2, 2] (median 2 ≤ 3) gives the slow decay 0.88. -/
theorem c7_file_decay_piecewise_witness :
    Learner.get_file_decay lrnC7w "g" = 0.88 :=
  ((c7_file_decay_piecewise lrnC7w "g").2.2 [2, 2] (by decide) (by decide)).1 (by decide)

/-! ## Learner-boost support lemmas -/

theorem boost_weight_observing (l : Learner) (h : l.maturity = MaturityLevel.observing) :
    l.boost_weight = 0 := by
  unfold Learner.boost_weight
  rw [h]

theorem boost_weight_nonneg (l : Learner) : 0 ≤ l.boost_weight := by
  unfold Learner.boost_weight
  cases l.maturity
  · exact le_refl 0
  · unfold ACTIVE_BOOST_WEIGHT
    norm_num

theorem calculate_idf_nonneg (l : Learner) (word : String) : 0 ≤ l.calculate_idf word := by
  unfold Learner.calculate_idf
  by_cases h : l.turn_count = 0
  · simp [h]
  · rw [if_neg h]
    calc (0 : ℝ) ≤ 0.1 := by norm_num
    _ ≤ _ := le_max_right _ _

theorem affinityStep_le (l : Learner) (file : String) (acc : ℝ) (word : String) :
    acc ≤ affinityStep l file acc word := by
  unfold affinityStep
  cases lookupA word l.word_file_counts with
  | none => exact le_refl acc
  | some file_counts =>
    dsimp only
    cases lookupA file file_counts with
    | none => exact le_refl acc
    | some count =>
      show acc ≤ acc + l.calculate_idf word *
        (if 0 < l.turn_count then (count : ℝ) / (l.turn_count : ℝ) else 0)
      have hfreq : (0 : ℝ) ≤ if 0 < l.turn_count then (count : ℝ) / (l.turn_count : ℝ) else 0 := by
        by_cases h : 0 < l.turn_count
        · rw [if_pos h]
          positivity
        · rw [if_neg h]
      have := mul_nonneg (calculate_idf_nonneg l word) hfreq
      linarith

theorem foldl_affinityStep_le (l : Learner) (file : String) (words : List String) :
    ∀ acc : ℝ, acc ≤ words.foldl (affinityStep l file) acc := by
  induction words with
  | nil => exact fun acc => le_refl acc
  | cons w ws ih =>
    intro acc
    calc acc ≤ affinityStep l file acc w := affinityStep_le l file acc w
    _ ≤ ws.foldl (affinityStep l file) (affinityStep l file acc w) := ih _

theorem boostEntry_fst (l : Learner) (words : List String) (fb : String × ℝ) :
    (boostEntry l words fb).1 = fb.1 := rfl

theorem boostEntry_snd_bounds (l : Learner) (words : List String) (fb : String × ℝ)
    (hle : fb.2 ≤ 1) :
    fb.2 ≤ (boostEntry l words fb).2 ∧ (boostEntry l words fb).2 ≤ 1 := by
  unfold boostEntry
  simp only
  have haff : (0 : ℝ) ≤ words.foldl (affinityStep l fb.1) 0 := foldl_affinityStep_le l fb.1 words 0
  have hmax : (0 : ℝ) < max ((words.length : ℝ)) 1 := lt_of_lt_of_le one_pos (le_max_right _ _)
  have hboost : 0 ≤ words.foldl (affinityStep l fb.1) 0 / max ((words.length : ℝ)) 1 *
      l.boost_weight :=
    mul_nonneg (div_nonneg haff (le_of_lt hmax)) (boost_weight_nonneg l)
  constructor
  · exact le_min (by linarith) hle
  · exact min_le_right _ _

/-! ## C6 — boost_scores is the identity below maturity or without words -/

/-- C6: for a learner whose stored maturity agrees with its turn count (the
invariant `update_maturity` maintains), `boost_scores` returns the input
score map unchanged whenever `turn_count < 25` or the prompt has no
significant words after stop-word filtering. -/
theorem c6_boost_scores_identity (l : Learner) (prompt : String)
    (current_scores : List (String × ℝ))
    (hcons : l.maturity =
      (if MATURITY_THRESHOLD ≤ l.turn_count then MaturityLevel.active
       else MaturityLevel.observing))
    (h : l.turn_count < MATURITY_THRESHOLD ∨ Learner.extract_words prompt = []) :
    l.boost_scores prompt current_scores = current_scores := by
  unfold Learner.boost_scores
  rcases h with h | h
  · have hobs : l.maturity = MaturityLevel.observing := by
      rw [hcons, if_neg (by omega)]
    rw [if_pos (boost_weight_observing l hobs)]
  · by_cases hw : l.boost_weight = 0
    · rw [if_pos hw]
    · rw [if_neg hw]
      simp [h]

/-- C6 witness: a fresh learner (turn count 0, Observing) leaves a concrete
score map untouched. -/
theorem c6_boost_scores_identity_witness :
    Learner.boost_scores Learner.new "refactor the parsing logic"
      [("a.md", (1 : ℝ) / 2)] = [("a.md", (1 : ℝ) / 2)] :=
  c6_boost_scores_identity Learner.new "refactor the parsing logic"
    [("a.md", (1 : ℝ) / 2)] (by decide) (Or.inl (by decide))

/-! ## C10 — boost_scores keeps keys and moves scores within [old, 1] -/

/-- C10: on a score map whose values lie in [0, 1], `boost_scores` returns a
map with the same keys in the same order, every value at least its input
value and at most 1. -/
theorem c10_boost_scores_bounds (l : Learner) (prompt : String)
    (current_scores : List (String × ℝ))
    (hb : ∀ kv ∈ current_scores, 0 ≤ kv.2 ∧ kv.2 ≤ 1) :
    List.Forall₂ (fun kv kv' => kv.1 = kv'.1 ∧ kv.2 ≤ kv'.2 ∧ kv'.2 ≤ 1)
      current_scores (l.boost_scores prompt current_scores) := by
  unfold Learner.boost_scores
  by_cases hw : l.boost_weight = 0
  · rw [if_pos hw]
    exact List.forall₂_same.mpr fun kv hkv => ⟨rfl, le_refl _, (hb kv hkv).2⟩
  · rw [if_neg hw]
    by_cases hwords : Learner.extract_words prompt = []
    · simp only [hwords, if_pos]
      exact List.forall₂_same.mpr fun kv hkv => ⟨rfl, le_refl _, (hb kv hkv).2⟩
    · rw [if_neg hwords]
      rw [List.forall₂_map_right_iff]
      refine List.forall₂_same.mpr fun kv hkv => ?_
      have hbd := boostEntry_snd_bounds l (Learner.extract_words prompt) kv (hb kv hkv).2
      exact ⟨(boostEntry_fst l _ kv).symm, hbd.1, hbd.2⟩

/-- C10 witness: the bounds at a concrete observing learner and score map. -/
theorem c10_boost_scores_bounds_witness :
    List.Forall₂ (fun kv kv' => kv.1 = kv'.1 ∧ kv.2 ≤ kv'.2 ∧ kv'.2 ≤ 1)
      [("a.md", (1 : ℝ) / 2)]
      (Learner.boost_scores Learner.new "triage" [("a.md", (1 : ℝ) / 2)]) :=
  c10_boost_scores_bounds Learner.new "triage" [("a.md", (1 : ℝ) / 2)]
    (by
      intro kv hkv
      rw [List.mem_singleton] at hkv
      rw [hkv]
      norm_num)

/-! ## C9 — the token budget is respected -/

/-- Total token cost of a list of returned paths, each charged its stored
`token_estimate`. -/
def sumTokens (file_symbols : List (String × Nat)) (paths : List String) : Nat :=
  (paths.map (fun p => (lookupA p file_symbols).getD 0)).sum

theorem greedyBudget_le (file_symbols : List (String × Nat)) (token_budget : Nat)
    (items : List (String × ℝ)) :
    ∀ tokens_used : Nat, tokens_used ≤ token_budget →
      tokens_used + sumTokens file_symbols
        (greedyBudget items file_symbols token_budget tokens_used) ≤ token_budget := by
  induction items with
  | nil =>
    intro used hused
    simpa [greedyBudget, sumTokens] using hused
  | cons pr rest ih =>
    intro used hused
    rw [greedyBudget]
    cases hl : lookupA pr.1 file_symbols with
    | none => exact ih used hused
    | some est =>
      dsimp only
      by_cases hfit : token_budget < used + est
      · rw [if_pos hfit]
        simpa [sumTokens] using hused
      · rw [if_neg hfit]
        have h2 := ih (used + est) (by omega)
        simp only [sumTokens, List.map_cons, List.sum_cons, hl, Option.getD_some]
        simp only [sumTokens] at h2
        omega

/-- C9: whatever PageRank scores, stored token estimates and budget, the sum
of the token estimates of the files `get_ranked_files` returns never exceeds
the budget (the greedy loop stops at the first file that would exceed it). -/
theorem c9_token_budget_respected (page_rank_scores : List (String × ℝ))
    (file_symbols : List (String × Nat)) (token_budget : Nat) :
    sumTokens file_symbols
      (RepoMapper.get_ranked_files page_rank_scores file_symbols token_budget) ≤
      token_budget := by
  have h := greedyBudget_le file_symbols token_budget
    (sortByCmp (fun a b => rcmp b.2 a.2) page_rank_scores) 0 (Nat.zero_le _)
  simpa [RepoMapper.get_ranked_files] using h

/-! ## Key-set preservation through the router phases -/

theorem keys_mapVals {α : Type} (f : String → α → α) (l : List (String × α)) :
    (mapVals f l).map Prod.fst = l.map Prod.fst := by
  induction l with
  | nil => rfl
  | cons kv t ih => simp [mapVals, ih]

theorem keys_updA {α : Type} (q : String) (f : α → α) (l : List (String × α)) :
    (updA q f l).map Prod.fst = l.map Prod.fst := by
  induction l with
  | nil => rfl
  | cons kv t ih =>
    by_cases h : kv.1 = q <;> simp [updA, h, ih]

theorem keys_foldl_updA {α β : Type} (key : β → String) (fn : β → α → α) (bs : List β) :
    ∀ s : List (String × α),
      ((bs.foldl (fun acc b => updA (key b) (fn b) acc) s).map Prod.fst) = s.map Prod.fst := by
  induction bs with
  | nil => exact fun s => rfl
  | cons b t ih =>
    intro s
    rw [List.foldl_cons, ih, keys_updA]

theorem keys_phase1 (config : Config) (learner : Option Learner) (s : List (String × ℝ)) :
    (phase1Decay config learner s).map Prod.fst = s.map Prod.fst := keys_mapVals _ s

theorem phase2_eq (s : List (String × ℝ)) : phase2Coactivation s = s := rfl

theorem keys_phase3 (config : Config) (s : List (String × ℝ)) :
    (phase3Pinned config s).map Prod.fst = s.map Prod.fst :=
  keys_foldl_updA (fun p => p) (fun _ v => max v (config.warm_threshold + config.pinned_floor_boost))
    config.pinned_files s

theorem phase4_foldl_eq (config : Config) (s : List (String × ℝ)) :
    phase4Demoted config s =
      config.demoted_files.foldl
        (fun acc p => updA p (fun v => v * config.demoted_penalty) acc) s := by
  unfold phase4Demoted
  congr 1

theorem keys_phase4 (config : Config) (s : List (String × ℝ)) :
    (phase4Demoted config s).map Prod.fst = s.map Prod.fst := by
  rw [phase4_foldl_eq]
  exact keys_foldl_updA (fun p => p) (fun _ v => v * config.demoted_penalty)
    config.demoted_files s

theorem keys_phase5 (learner : Option Learner) (prompt : String) (s : List (String × ℝ)) :
    (phase5LearnerBoost learner prompt s).map Prod.fst = s.map Prod.fst := by
  cases learner with
  | none => rfl
  | some l =>
    exact keys_foldl_updA (fun kv => kv.1) (fun kv _ => kv.2) (l.boost_scores prompt s) s

theorem scoresAfterPhases_keys (config : Config) (state : AttentionState) (prompt : String)
    (learner : Option Learner) :
    (scoresAfterPhases config state prompt learner).map Prod.fst =
      state.scores.map Prod.fst := by
  unfold scoresAfterPhases
  rw [keys_phase5, keys_phase4, keys_phase3, phase2_eq, keys_phase1]

/-! ## Phase-6 streak lemmas -/

theorem lookupA_streakStep_ne (ct : List (String × Nat)) (kv : String × ℝ) (f : String)
    (hne : f ≠ kv.1) : lookupA f (streakStep ct kv) = lookupA f ct := by
  unfold streakStep
  split <;> rw [lookupA_insA, if_neg hne]

theorem lookupA_phase6_not_mem (s : List (String × ℝ)) (f : String)
    (hf : f ∉ s.map Prod.fst) :
    ∀ ct, lookupA f (phase6Streaks s ct) = lookupA f ct := by
  unfold phase6Streaks
  induction s with
  | nil => exact fun ct => rfl
  | cons kv t ih =>
    intro ct
    simp only [List.map_cons, List.mem_cons, not_or] at hf
    rw [List.foldl_cons, ih hf.2, lookupA_streakStep_ne ct kv f hf.1]

theorem phase6_cold_lookup (s : List (String × ℝ)) (f : String) (v : ℝ)
    (hnd : (s.map Prod.fst).Nodup) (hv : lookupA f s = some v)
    (hcold : Tier.from_score v = Tier.cold) :
    ∀ ct, lookupA f (phase6Streaks s ct) = some 0 := by
  induction s with
  | nil => simp [lookupA] at hv
  | cons kv t ih =>
    intro ct
    by_cases hk : f = kv.1
    · have hv2 : kv.2 = v := by
        rw [lookupA, if_pos hk] at hv
        exact Option.some.inj hv
      have hnm : f ∉ t.map Prod.fst := by
        rw [hk]
        exact (List.nodup_cons.mp hnd).1
      unfold phase6Streaks
      rw [List.foldl_cons]
      have hstep : streakStep ct kv = insA kv.1 0 ct := by
        unfold streakStep
        rw [if_neg]
        rw [hv2, hcold]
        intro hor
        rcases hor with h | h <;> exact Tier.noConfusion h
      rw [show t.foldl streakStep (streakStep ct kv) = phase6Streaks t (streakStep ct kv) from rfl,
        lookupA_phase6_not_mem t f hnm, hstep, lookupA_insA, if_pos hk]
    · have hv' : lookupA f t = some v := by
        rw [lookupA, if_neg hk] at hv
        exact hv
      have hnd' : (t.map Prod.fst).Nodup := (List.nodup_cons.mp hnd).2
      unfold phase6Streaks
      rw [List.foldl_cons]
      exact ih hnd' hv' (streakStep ct kv)

theorem tier_cases (t : Tier) : t = Tier.hot ∨ t = Tier.warm ∨ t = Tier.cold := by
  cases t
  · exact Or.inl rfl
  · exact Or.inr (Or.inl rfl)
  · exact Or.inr (Or.inr rfl)

/-! ## C4 — streaks agree with tiers after a turn -/

/-- C4: after `update_attention`, for every file still carrying a score `v`,
a positive streak implies the tier of `v` is HOT or WARM, and a COLD tier
implies the stored streak is zero. The score map is assumed duplicate-free,
as a HashMap is. -/
theorem c4_streak_tier_consistency (config : Config) (state : AttentionState)
    (prompt : String) (learner : Option Learner) (f : String) (v : ℝ)
    (hnd : (state.scores.map Prod.fst).Nodup)
    (hv : lookupA f (Router.update_attention config state prompt learner).scores = some v) :
    (0 < (lookupA f
        (Router.update_attention config state prompt learner).consecutive_turns).getD 0 →
      Tier.from_score v = Tier.hot ∨ Tier.from_score v = Tier.warm) ∧
    (Tier.from_score v = Tier.cold →
      lookupA f (Router.update_attention config state prompt learner).consecutive_turns
        = some 0) := by
  have hnd5 : ((scoresAfterPhases config state prompt learner).map Prod.fst).Nodup := by
    rw [scoresAfterPhases_keys]
    exact hnd
  have hv5 : lookupA f (scoresAfterPhases config state prompt learner) = some v := hv
  constructor
  · intro hpos
    rcases tier_cases (Tier.from_score v) with h | h | h
    · exact Or.inl h
    · exact Or.inr h
    · exfalso
      have hz := phase6_cold_lookup _ f v hnd5 hv5 h
        (ensureConsec state.scores state.consecutive_turns)
      have : (lookupA f
          (Router.update_attention config state prompt learner).consecutive_turns).getD 0 = 0 := by
        rw [show (Router.update_attention config state prompt learner).consecutive_turns =
          phase6Streaks (scoresAfterPhases config state prompt learner)
            (ensureConsec state.scores state.consecutive_turns) from rfl, hz]
        rfl
      omega
  · intro h
    exact phase6_cold_lookup _ f v hnd5 hv5 h
      (ensureConsec state.scores state.consecutive_turns)

/-- Prior state for the C4 witness. -/
noncomputable def stC4w : AttentionState :=
  { scores := [("a.md", 1)], consecutive_turns := [], turn_count := 0 }

/-- C4 witness: after one default turn from score 1.0 the file sits at 0.7
with streak 1 > 0, and the theorem yields that its tier is HOT or WARM. -/
theorem c4_streak_tier_consistency_witness :
    Tier.from_score (0.7 : ℝ) = Tier.hot ∨ Tier.from_score (0.7 : ℝ) = Tier.warm :=
  (c4_streak_tier_consistency Config.new stC4w "" none "a.md" 0.7
    (by simp [stC4w])
    (by norm_num [Router.update_attention, scoresAfterPhases, phase1Decay,
      phase2Coactivation, phase3Pinned, phase4Demoted, phase5LearnerBoost,
      coactivationBoosts, stC4w, Config.new, DecayRates.new, DecayRates.get_decay,
      getDecayList, mapVals, lookupA,
      (by decide : strStartsWith "a.md" "systems/" = false),
      (by decide : strStartsWith "a.md" "modules/" = false),
      (by decide : strStartsWith "a.md" "integrations/" = false),
      (by decide : strStartsWith "a.md" "docs/" = false)])).1
    (by norm_num [Router.update_attention, scoresAfterPhases, phase1Decay,
      phase2Coactivation, phase3Pinned, phase4Demoted, phase5LearnerBoost,
      coactivationBoosts, phase6Streaks, streakStep, ensureConsec, insA, updA,
      stC4w, Config.new, DecayRates.new, DecayRates.get_decay,
      getDecayList, mapVals, lookupA, Tier.from_score,
      (by decide : strStartsWith "a.md" "systems/" = false),
      (by decide : strStartsWith "a.md" "modules/" = false),
      (by decide : strStartsWith "a.md" "integrations/" = false),
      (by decide : strStartsWith "a.md" "docs/" = false)])

/-! ## C3 — pinned-file floor -/

/-- Configuration with a file that is both pinned and demoted. -/
noncomputable def cfgC3 : Config :=
  { Config.new with pinned_files := ["p.md"], demoted_files := ["p.md"] }

/-- Prior state for the C3 counterexample. -/
noncomputable def stC3 : AttentionState :=
  { scores := [("p.md", 0.6)], consecutive_turns := [], turn_count := 0 }

/-- C3 (counterexample): `p.md` is pinned with prior score 0.6 ≥ 0 and floor
0.25 + 0.1 = 0.35, but it is also demoted and the demotion phase runs after
the pin floor, leaving 0.6 · 0.7 · 0.5 = 0.21 < 0.35. -/
theorem c3_pinned_demoted_breaks_floor :
    lookupA "p.md" (Router.update_attention cfgC3 stC3 "" none).scores = some 0.21 ∧
    ¬ (cfgC3.warm_threshold + cfgC3.pinned_floor_boost ≤ (0.21 : ℝ)) := by
  constructor
  · norm_num [Router.update_attention, scoresAfterPhases, phase1Decay, phase2Coactivation,
      phase3Pinned, phase4Demoted, phase5LearnerBoost, coactivationBoosts,
      cfgC3, stC3, Config.new, DecayRates.new, DecayRates.get_decay, getDecayList,
      mapVals, updA, lookupA, directly_activated, max_def,
      (by decide : strStartsWith "p.md" "systems/" = false),
      (by decide : strStartsWith "p.md" "modules/" = false),
      (by decide : strStartsWith "p.md" "integrations/" = false),
      (by decide : strStartsWith "p.md" "docs/" = false)]
  · norm_num [cfgC3, Config.new]

/-! ## AllAtKey: values stored under one key through the phases -/

/-- Every value stored under key `k` satisfies `P`. -/
def AllAtKey {α : Type} (k : String) (P : α → Prop) (l : List (String × α)) : Prop :=
  ∀ kv ∈ l, kv.1 = k → P kv.2

theorem mem_updA {α : Type} {q : String} {f : α → α} {l : List (String × α)}
    {kv' : String × α} (h : kv' ∈ updA q f l) :
    ∃ kv ∈ l, kv' = if kv.1 = q then (kv.1, f kv.2) else kv := by
  induction l with
  | nil => simp [updA] at h
  | cons kv t ih =>
    rw [updA] at h
    rcases List.mem_cons.mp h with h1 | h2
    · exact ⟨kv, List.mem_cons_self kv t, h1⟩
    · obtain ⟨kv0, hm, he⟩ := ih h2
      exact ⟨kv0, List.mem_cons_of_mem _ hm, he⟩

theorem allAtKey_updA_self {α : Type} (k : String) (f : α → α) (P : α → Prop)
    (l : List (String × α)) (hf : ∀ x, P (f x)) : AllAtKey k P (updA k f l) := by
  intro kv' hm hk
  obtain ⟨kv, hmem, he⟩ := mem_updA hm
  by_cases h : kv.1 = k
  · rw [if_pos h] at he
    rw [he]
    exact hf kv.2
  · rw [if_neg h] at he
    rw [he] at hk
    exact absurd hk h

theorem allAtKey_updA_preserve {α : Type} (k q : String) (f : α → α) (P : α → Prop)
    (l : List (String × α)) (h : AllAtKey k P l) (hf : ∀ x, P x → P (f x)) :
    AllAtKey k P (updA q f l) := by
  intro kv' hm hk
  obtain ⟨kv, hmem, he⟩ := mem_updA hm
  by_cases hq : kv.1 = q
  · rw [if_pos hq] at he
    rw [he] at hk ⊢
    exact hf kv.2 (h kv hmem hk)
  · rw [if_neg hq] at he
    rw [he] at hk ⊢
    exact h kv hmem hk

theorem allAtKey_updA_preserve_ne {α : Type} (k q : String) (f : α → α) (P : α → Prop)
    (l : List (String × α)) (hne : q ≠ k) (h : AllAtKey k P l) :
    AllAtKey k P (updA q f l) := by
  intro kv' hm hk
  obtain ⟨kv, hmem, he⟩ := mem_updA hm
  by_cases hq : kv.1 = q
  · rw [if_pos hq] at he
    rw [he] at hk
    exact absurd (hq ▸ hk : q = k) hne
  · rw [if_neg hq] at he
    rw [he] at hk ⊢
    exact h kv hmem hk

theorem allAtKey_updA_assign {α : Type} (P : α → Prop) (p q : String) (v : α)
    (l : List (String × α)) (h : AllAtKey p P l) (hv : q = p → P v) :
    AllAtKey p P (updA q (fun _ => v) l) := by
  intro kv' hm hk
  obtain ⟨kv, hmem, he⟩ := mem_updA hm
  by_cases hq : kv.1 = q
  · rw [if_pos hq] at he
    rw [he] at hk ⊢
    exact hv (hq ▸ hk)
  · rw [if_neg hq] at he
    rw [he] at hk ⊢
    exact h kv hmem hk

theorem allAtKey_foldl_max (floor : ℝ) (ps : List String) (p : String) :
    ∀ s : List (String × ℝ),
      (p ∈ ps ∨ AllAtKey p (fun v => floor ≤ v) s) →
      AllAtKey p (fun v => floor ≤ v)
        (ps.foldl (fun acc q => updA q (fun v => max v floor) acc) s) := by
  induction ps with
  | nil =>
    intro s h
    exact h.resolve_left (by simp)
  | cons q t ih =>
    intro s h
    rw [List.foldl_cons]
    apply ih
    rcases h with hmem | hall
    · rcases List.mem_cons.mp hmem with rfl | hmem'
      · right
        exact allAtKey_updA_self p _ _ s (fun x => le_max_right x floor)
      · left
        exact hmem'
    · right
      exact allAtKey_updA_preserve p q _ _ s hall
        (fun x hx => le_trans hx (le_max_left x floor))

theorem allAtKey_foldl_updA_ne {α : Type} (P : α → Prop) (p : String) (g : String → α → α)
    (ds : List String) (hd : p ∉ ds) :
    ∀ s : List (String × α), AllAtKey p P s →
      AllAtKey p P (ds.foldl (fun acc q => updA q (g q) acc) s) := by
  induction ds with
  | nil => exact fun s h => h
  | cons q t ih =>
    intro s h
    simp only [List.mem_cons, not_or] at hd
    rw [List.foldl_cons]
    exact ih hd.2 _ (allAtKey_updA_preserve_ne p q _ P s (fun he => hd.1 he.symm) h)

theorem allAtKey_foldl_assign {α : Type} (P : α → Prop) (p : String)
    (bs : List (String × α)) (hb : ∀ kv ∈ bs, kv.1 = p → P kv.2) :
    ∀ s : List (String × α), AllAtKey p P s →
      AllAtKey p P (bs.foldl (fun acc kv => updA kv.1 (fun _ => kv.2) acc) s) := by
  induction bs with
  | nil => exact fun s h => h
  | cons kv t ih =>
    intro s h
    rw [List.foldl_cons]
    apply ih (fun kv' hm hk => hb kv' (List.mem_cons_of_mem _ hm) hk)
    exact allAtKey_updA_assign P p kv.1 kv.2 s h (fun hq => hb kv (List.mem_cons_self kv t) hq)

theorem le_boostEntry_snd (l : Learner) (words : List String) (fb : String × ℝ) (floor : ℝ)
    (hfb : floor ≤ fb.2) (hfl : floor ≤ 1) : floor ≤ (boostEntry l words fb).2 := by
  unfold boostEntry
  simp only
  have haff : (0 : ℝ) ≤ words.foldl (affinityStep l fb.1) 0 :=
    foldl_affinityStep_le l fb.1 words 0
  have hmax : (0 : ℝ) < max ((words.length : ℝ)) 1 := lt_of_lt_of_le one_pos (le_max_right _ _)
  have hboost : 0 ≤ words.foldl (affinityStep l fb.1) 0 / max ((words.length : ℝ)) 1 *
      l.boost_weight :=
    mul_nonneg (div_nonneg haff (le_of_lt hmax)) (boost_weight_nonneg l)
  exact le_min (by linarith) hfl

theorem allAtKey_boost_scores (l : Learner) (prompt : String) (s : List (String × ℝ))
    (p : String) (floor : ℝ) (hfl : floor ≤ 1)
    (h : AllAtKey p (fun v => floor ≤ v) s) :
    AllAtKey p (fun v => floor ≤ v) (l.boost_scores prompt s) := by
  unfold Learner.boost_scores
  by_cases hw : l.boost_weight = 0
  · rw [if_pos hw]
    exact h
  · rw [if_neg hw]
    by_cases hwords : Learner.extract_words prompt = []
    · simp only [hwords, if_pos]
      exact h
    · rw [if_neg hwords]
      intro kv' hm hk
      obtain ⟨kv, hmem, he⟩ := List.mem_map.mp hm
      rw [← he] at hk ⊢
      rw [boostEntry_fst] at hk
      exact le_boostEntry_snd l _ kv floor (h kv hmem hk) hfl

theorem allAtKey_phase4 (config : Config) (s : List (String × ℝ)) (p : String)
    (P : ℝ → Prop) (hd : p ∉ config.demoted_files) (h : AllAtKey p P s) :
    AllAtKey p P (phase4Demoted config s) := by
  rw [phase4_foldl_eq]
  exact allAtKey_foldl_updA_ne P p _ config.demoted_files hd s h

theorem allAtKey_phase5 (learner : Option Learner) (prompt : String)
    (s : List (String × ℝ)) (p : String) (floor : ℝ) (hfl : floor ≤ 1)
    (h : AllAtKey p (fun v => floor ≤ v) s) :
    AllAtKey p (fun v => floor ≤ v) (phase5LearnerBoost learner prompt s) := by
  cases learner with
  | none => exact h
  | some l =>
    exact allAtKey_foldl_assign _ p _ (allAtKey_boost_scores l prompt s p floor hfl h) s h

theorem lookupA_isSome_iff_mem {α : Type} (k : String) (l : List (String × α)) :
    (lookupA k l).isSome ↔ k ∈ l.map Prod.fst := by
  induction l with
  | nil => simp [lookupA]
  | cons kv t ih =>
    by_cases h : k = kv.1 <;> simp [lookupA, h, ih]

/-- C3 (amended): for every config in which the pinned file is not also
demoted and the floor `warm_threshold + pinned_floor_boost` does not exceed
1, a pinned file present in `scores` (with any prior score ≥ 0) ends the turn
with score at least the floor; the phase-3 `max` preserves higher scores. -/
theorem c3_pinned_floor (config : Config) (state : AttentionState) (prompt : String)
    (learner : Option Learner) (p : String)
    (hp : p ∈ config.pinned_files)
    (hd : p ∉ config.demoted_files)
    (hfl : config.warm_threshold + config.pinned_floor_boost ≤ 1)
    (hin : (lookupA p state.scores).isSome)
    (_hnn : ∀ v, lookupA p state.scores = some v → 0 ≤ v) :
    ∃ v, lookupA p (Router.update_attention config state prompt learner).scores = some v ∧
      config.warm_threshold + config.pinned_floor_boost ≤ v := by
  have h3 : AllAtKey p (fun v => config.warm_threshold + config.pinned_floor_boost ≤ v)
      (phase3Pinned config (phase2Coactivation (phase1Decay config learner state.scores))) := by
    unfold phase3Pinned
    exact allAtKey_foldl_max _ config.pinned_files p _ (Or.inl hp)
  have h4 := allAtKey_phase4 config _ p _ hd h3
  have h5 := allAtKey_phase5 learner prompt _ p _ hfl h4
  have hsome : (lookupA p (scoresAfterPhases config state prompt learner)).isSome := by
    rw [lookupA_isSome_iff_mem, scoresAfterPhases_keys]
    exact (lookupA_isSome_iff_mem p state.scores).mp hin
  obtain ⟨v, hv⟩ := Option.isSome_iff_exists.mp hsome
  exact ⟨v, hv, h5 (p, v) (lookupA_mem hv) rfl⟩

/-- Configuration for the C3 witness: one pinned file, nothing demoted. -/
noncomputable def cfgC3w : Config := { Config.new with pinned_files := ["p.md"] }

/-- Prior state for the C3 witness: the pinned file far below the floor. -/
noncomputable def stC3w : AttentionState :=
  { scores := [("p.md", 0.05)], consecutive_turns := [], turn_count := 0 }

/-- C3 witness: Scenario B — a pinned file at 0.05 ends the turn at or above
the floor 0.35. -/
theorem c3_pinned_floor_witness :
    ∃ v, lookupA "p.md" (Router.update_attention cfgC3w stC3w "" none).scores = some v ∧
      cfgC3w.warm_threshold + cfgC3w.pinned_floor_boost ≤ v :=
  c3_pinned_floor cfgC3w stC3w "" none "p.md"
    (by simp [cfgC3w, Config.new])
    (by simp [cfgC3w, Config.new])
    (by norm_num [cfgC3w, Config.new])
    (by simp [stC3w, lookupA])
    (by
      intro v hv
      simp [stC3w, lookupA] at hv
      rw [← hv]
      norm_num)

/-! ## C8 — BM25 scores documents that do not contain the query term -/

theorem rcmp_eq_lt_of_lt {a b : ℝ} (h : a < b) : rcmp a b = Ordering.lt := by
  unfold rcmp
  rw [if_pos h]

/-- The C8 corpus: the query term `"rust"` occurs only in the longer
document `d2`. -/
def docsC8 : List (String × List String) :=
  [("d1", ["alpha"]), ("d2", ["rust", "systems", "programming"])]

/-- The BM25 state after indexing the C8 corpus. -/
noncomputable def bmC8 : BM25 := BM25.index docsC8

theorem bmC8_score_d1 :
    bmC8.compute_score 0 ["rust"] = Real.log 2 * (3 / 2) / (31 / 16) := by
  norm_num [bmC8, BM25.compute_score, BM25.index, docsC8, docFreqOf, bumpA,
    List.dedup, lookupA, K1, B]

theorem bmC8_score_d2 :
    bmC8.compute_score 1 ["rust"] = Real.log 2 * (3 / 2) / (49 / 16) := by
  norm_num [bmC8, BM25.compute_score, BM25.index, docsC8, docFreqOf, bumpA,
    List.dedup, lookupA, K1, B]

/-- C8 (failing input): the single query term `"rust"` occurs in `d2` only,
yet `search` returns `d1` as top-1 — `compute_score` adds the idf
contribution to every document without checking term presence, so the
shorter document wins. -/
theorem c8_search_prefers_absent_term_doc :
    (bmC8.search ["rust"] 1).map Prod.fst = ["d1"] ∧
    "rust" ∈ ["rust", "systems", "programming"] ∧ "rust" ∉ ["alpha"] := by
  refine ⟨?_, by decide, by decide⟩
  have hlt : bmC8.compute_score 1 ["rust"] < bmC8.compute_score 0 ["rust"] := by
    rw [bmC8_score_d1, bmC8_score_d2]
    exact div_lt_div_of_pos_left
      (mul_pos (Real.log_pos (by norm_num)) (by norm_num)) (by norm_num) (by norm_num)
  have hcount : bmC8.doc_count = 2 := by
    norm_num [bmC8, BM25.index, docsC8]
  have hids : bmC8.doc_ids = ["d1", "d2"] := by
    norm_num [bmC8, BM25.index, docsC8]
  rw [BM25.search, if_neg (by rw [hcount]; norm_num)]
  simp only [hids, List.enum]
  norm_num [List.enumFrom, sortByCmp, insertCmp, rcmp_eq_lt_of_lt hlt,
    (by decide : Ordering.lt ≠ Ordering.gt)]

end Attentive
